import Mathlib

/-!
Verification of the rate-limiting core of the repository: the five decision
algorithms (token bucket, leaking bucket, fixed window, sliding window log,
sliding window counter), the in-memory storage backend, the limiter
middleware and its statistics aggregator.

Modelling conventions.  Clock values are milliseconds since epoch, modelled
as naturals.  JavaScript numbers appearing in configurations, token counts
and decision records are modelled as rationals; `Math.floor` and `Math.ceil`
are the floor and ceiling into the integers.  JavaScript `x || d` numeric
defaulting (where `0` counts as absent) is `jsOr`.  Asynchronous storage
operations are modelled as pure state passing; a backend failure during a
middleware invocation is modelled by handing the middleware an `Except`
error in place of a decision record.
-/

/-- JavaScript numeric defaulting `x || d`: an absent value or `0` falls back
to the default. -/
def jsOr (x : Option ℚ) (d : ℚ) : ℚ :=
  match x with
  | none => d
  | some v => if v = 0 then d else v

/-- JavaScript numeric defaulting for natural-valued options (`statusCode || 429`). -/
def jsOrNat (x : Option ℕ) (d : ℕ) : ℕ :=
  match x with
  | none => d
  | some v => if v = 0 then d else v

/-- The five algorithm identifiers of the `RateLimitAlgorithm` union type. -/
inductive RateLimitAlgorithm where
  | TOKEN_BUCKET
  | LEAKING_BUCKET
  | FIXED_WINDOW
  | SLIDING_WINDOW_LOG
  | SLIDING_WINDOW_COUNTER
deriving DecidableEq, Repr

/-- The `RateLimitConfig` record (fields used by the decision engine and the
middleware; the key generator and the custom message are presentation-only
and play no role in the verified properties). -/
structure RateLimitConfig where
  windowMs : ℕ
  maxRequests : ℕ
  algorithm : RateLimitAlgorithm
  headers : Option Bool
  statusCode : Option ℕ
  bucketSize : Option ℚ
  refillRate : Option ℚ
  refillInterval : Option ℚ
  queueSize : Option ℚ
  processingRate : Option ℚ
deriving DecidableEq, Repr

/-- The `RateLimitResult` decision record returned by every algorithm. -/
structure RateLimitResult where
  allowed : Bool
  remaining : ℚ
  resetTime : ℤ
  limit : ℚ
  retryAfter : Option ℤ
  currentCount : ℚ
deriving DecidableEq, Repr

/-- The `TokenBucketState` stored per key. -/
structure TokenBucketState where
  tokens : ℚ
  lastRefillTime : ℕ
deriving DecidableEq, Repr

/-- The `LeakingBucketState` stored per key: queued arrival times and the
time of the last leak. -/
structure LeakingBucketState where
  queue : List ℕ
  lastLeakTime : ℕ
deriving DecidableEq, Repr

/-- An entry of the `MemoryStore` counters map: a value and its expiry. -/
structure CounterEntry where
  value : ℕ
  expiresAt : ℕ
deriving DecidableEq, Repr

/-- Model of `MemoryStore.increment`: on an absent or expired key the counter starts
fresh at `1` with expiry `now + windowMs`; otherwise the stored value is
bumped in place and the expiry is left untouched.  Returns the
post-increment value together with the updated map. -/
def MemoryStore.increment (counters : String → Option CounterEntry) (key : String)
    (windowMs now : ℕ) : ℕ × (String → Option CounterEntry) :=
  match counters key with
  | none => (1, Function.update counters key (some { value := 1, expiresAt := now + windowMs }))
  | some s =>
      if s.expiresAt ≤ now then
        (1, Function.update counters key (some { value := 1, expiresAt := now + windowMs }))
      else
        (s.value + 1,
         Function.update counters key (some { value := s.value + 1, expiresAt := s.expiresAt }))

/-- Model of `MemoryStore.get`: the stored counter value, or `none` when absent or expired. -/
def MemoryStore.get (counters : String → Option CounterEntry) (key : String) (now : ℕ) :
    Option ℕ :=
  match counters key with
  | none => none
  | some s => if s.expiresAt ≤ now then none else some s.value

/-- Resolved `bucketSize` of a token-bucket configuration
(`config.bucketSize || config.maxRequests`). -/
def TokenBucket.bucketSizeOf (cfg : RateLimitConfig) : ℚ :=
  jsOr cfg.bucketSize (cfg.maxRequests : ℚ)

/-- Resolved `refillRate` (`config.refillRate || 1`). -/
def TokenBucket.refillRateOf (cfg : RateLimitConfig) : ℚ :=
  jsOr cfg.refillRate 1

/-- Resolved `refillInterval` (`config.refillInterval || windowMs / maxRequests`). -/
def TokenBucket.refillIntervalOf (cfg : RateLimitConfig) : ℚ :=
  jsOr cfg.refillInterval ((cfg.windowMs : ℚ) / (cfg.maxRequests : ℚ))

/-- Model of `TokenBucketRateLimiter.checkLimit`.  Loads the state (a fresh full
bucket when absent), refills `floor(timePassed / refillInterval) * refillRate`
tokens capped at capacity, advances `lastRefillTime` only when tokens were
added, consumes one token when any is available, and reports the decision. -/
def TokenBucket.checkLimit (cfg : RateLimitConfig) (stored : Option TokenBucketState)
    (now : ℕ) : RateLimitResult × TokenBucketState :=
  let bucketSize := TokenBucket.bucketSizeOf cfg
  let refillRate := TokenBucket.refillRateOf cfg
  let refillInterval := TokenBucket.refillIntervalOf cfg
  let state := stored.getD { tokens := bucketSize, lastRefillTime := now }
  let timePassed : ℚ := (now : ℚ) - (state.lastRefillTime : ℚ)
  let tokensToAdd : ℚ := (⌊timePassed / refillInterval⌋ : ℚ) * refillRate
  let tokens1 : ℚ := min bucketSize (state.tokens + tokensToAdd)
  let lastRefill1 : ℕ := if 0 < tokensToAdd then now else state.lastRefillTime
  let allowed : Bool := decide (0 < tokens1)
  let tokens2 : ℚ := if allowed then tokens1 - 1 else tokens1
  let tokensNeeded : ℚ := bucketSize - tokens2
  let timeToFullMs : ℚ := tokensNeeded / refillRate * refillInterval
  ({ allowed := allowed
     remaining := max 0 tokens2
     resetTime := ⌈((now : ℚ) + timeToFullMs) / 1000⌉
     limit := bucketSize
     retryAfter := if allowed then none else some ⌈refillInterval / 1000⌉
     currentCount := bucketSize - tokens2 },
   { tokens := tokens2, lastRefillTime := lastRefill1 })

/-- States after each check of a sequence of token-bucket checks for one key. -/
def TokenBucket.runFrom (cfg : RateLimitConfig) (stored : Option TokenBucketState) :
    List ℕ → List TokenBucketState
  | [] => []
  | t :: ts =>
      let s1 := (TokenBucket.checkLimit cfg stored t).2
      s1 :: TokenBucket.runFrom cfg (some s1) ts

/-- A token-bucket execution started on a key with no stored state. -/
def TokenBucket.run (cfg : RateLimitConfig) (times : List ℕ) : List TokenBucketState :=
  TokenBucket.runFrom cfg none times

/-- Resolved `queueSize` (`config.queueSize || config.maxRequests`). -/
def LeakingBucket.queueSizeOf (cfg : RateLimitConfig) : ℚ :=
  jsOr cfg.queueSize (cfg.maxRequests : ℚ)

/-- Resolved `processingRate`
(`config.processingRate || maxRequests / (windowMs / 1000)`). -/
def LeakingBucket.processingRateOf (cfg : RateLimitConfig) : ℚ :=
  jsOr cfg.processingRate ((cfg.maxRequests : ℚ) / ((cfg.windowMs : ℚ) / 1000))

/-- The leak phase of `LeakingBucketRateLimiter.checkLimit`: drop
`floor(timePassed / 1000 * processingRate)` requests FIFO and advance
`lastLeakTime`, but only when at least one request leaked. -/
def LeakingBucket.leak (processingRate : ℚ) (state : LeakingBucketState) (now : ℕ) :
    LeakingBucketState :=
  let timePassed : ℚ := (now : ℚ) - (state.lastLeakTime : ℚ)
  let leakedCount : ℤ := ⌊timePassed / 1000 * processingRate⌋
  if 0 < leakedCount then
    { queue := state.queue.drop leakedCount.toNat, lastLeakTime := now }
  else state

/-- Model of `LeakingBucketRateLimiter.checkLimit`: leak, admit the request into the
queue when there is room, and report the decision. -/
def LeakingBucket.checkLimit (cfg : RateLimitConfig) (stored : Option LeakingBucketState)
    (now : ℕ) : RateLimitResult × LeakingBucketState :=
  let queueSize := LeakingBucket.queueSizeOf cfg
  let processingRate := LeakingBucket.processingRateOf cfg
  let state0 := stored.getD { queue := [], lastLeakTime := now }
  let state1 := LeakingBucket.leak processingRate state0 now
  let allowed : Bool := decide ((state1.queue.length : ℚ) < queueSize)
  let queue2 : List ℕ := if allowed then state1.queue ++ [now] else state1.queue
  let blockedNonempty : Bool := !allowed && decide (0 < queue2.length)
  let timePerRequest : ℚ := 1000 / processingRate
  ({ allowed := allowed
     remaining := queueSize - (queue2.length : ℚ)
     resetTime :=
       if blockedNonempty then ⌈((now : ℚ) + timePerRequest) / 1000⌉
       else ⌈((now : ℚ) + (queue2.length : ℚ) / processingRate * 1000) / 1000⌉
     limit := queueSize
     retryAfter := if blockedNonempty then some ⌈timePerRequest / 1000⌉ else none
     currentCount := (queue2.length : ℚ) },
   { queue := queue2, lastLeakTime := state1.lastLeakTime })

/-- States after each check of a sequence of leaking-bucket checks for one key. -/
def LeakingBucket.runFrom (cfg : RateLimitConfig) (stored : Option LeakingBucketState) :
    List ℕ → List LeakingBucketState
  | [] => []
  | t :: ts =>
      let s1 := (LeakingBucket.checkLimit cfg stored t).2
      s1 :: LeakingBucket.runFrom cfg (some s1) ts

/-- A leaking-bucket execution started on a key with no stored state. -/
def LeakingBucket.run (cfg : RateLimitConfig) (times : List ℕ) : List LeakingBucketState :=
  LeakingBucket.runFrom cfg none times

/-- Model of `FixedWindowRateLimiter.checkLimit`: increment the counter of the
epoch-aligned window key and allow while the post-increment count stays
within `maxRequests`. -/
def FixedWindow.checkLimit (cfg : RateLimitConfig) (counters : String → Option CounterEntry)
    (key : String) (now : ℕ) : RateLimitResult × (String → Option CounterEntry) :=
  let windowMs := cfg.windowMs
  let maxRequests := cfg.maxRequests
  let windowStart := now - now % windowMs
  let windowKey := key ++ ":" ++ toString windowStart
  let step := MemoryStore.increment counters windowKey windowMs now
  let currentCount := step.1
  let allowed : Bool := decide (currentCount ≤ maxRequests)
  let windowEnd := windowStart + windowMs
  let resetTime : ℤ := ⌈(windowEnd : ℚ) / 1000⌉
  ({ allowed := allowed
     remaining := max 0 ((maxRequests : ℚ) - (currentCount : ℚ))
     resetTime := resetTime
     limit := (maxRequests : ℚ)
     retryAfter :=
       if allowed then none else some ⌈((resetTime : ℚ) * 1000 - (now : ℚ)) / 1000⌉
     currentCount := (currentCount : ℚ) },
   step.2)

/-- Model of `Math.min` over a list of arrival times (the blocked branch of the
sliding-window-log algorithm only evaluates it on a non-empty list). -/
def listMin : List ℕ → ℕ
  | [] => 0
  | x :: xs => xs.foldl min x

/-- Model of `SlidingWindowLogRateLimiter.checkLimit` over the abstract store
contract: `removeOldTimestamps` keeps the timestamps `≥ now − windowMs`,
`getTimestamps` returns those `≥ now − windowMs`, and an allowed request
appends its own arrival time. -/
def SlidingWindowLog.checkLimit (cfg : RateLimitConfig) (log : List ℕ) (now : ℕ) :
    RateLimitResult × List ℕ :=
  let windowMs := cfg.windowMs
  let maxRequests := cfg.maxRequests
  let windowStart := now - windowMs
  let log1 := log.filter fun ts => decide (windowStart ≤ ts)
  let timestamps := log1.filter fun ts => decide (windowStart ≤ ts)
  let currentCount := timestamps.length
  let allowed : Bool := decide (currentCount < maxRequests)
  let log2 := if allowed then log1 ++ [now] else log1
  let blockedNonempty : Bool := !allowed && decide (0 < timestamps.length)
  let oldestTimestamp := listMin timestamps
  let whenOldestExpires := oldestTimestamp + windowMs
  ({ allowed := allowed
     remaining := max 0 ((maxRequests : ℚ) - (currentCount : ℚ) - (if allowed then 1 else 0))
     resetTime :=
       if blockedNonempty then ⌈(whenOldestExpires : ℚ) / 1000⌉
       else ⌈((now + windowMs : ℕ) : ℚ) / 1000⌉
     limit := (maxRequests : ℚ)
     retryAfter :=
       if blockedNonempty then some (max 1 ⌈((whenOldestExpires : ℚ) - (now : ℚ)) / 1000⌉)
       else none
     currentCount := (currentCount : ℚ) + (if allowed then 1 else 0) },
   log2)

/-- The decision history `(time, allowed)` and final log of a sequence of
sliding-window-log checks for one key. -/
def SlidingWindowLog.runFrom (cfg : RateLimitConfig) (log : List ℕ) :
    List ℕ → List (ℕ × Bool) × List ℕ
  | [] => ([], log)
  | t :: ts =>
      let step := SlidingWindowLog.checkLimit cfg log t
      let rest := SlidingWindowLog.runFrom cfg step.2 ts
      ((t, step.1.allowed) :: rest.1, rest.2)

/-- A sliding-window-log execution started on a key with an empty log. -/
def SlidingWindowLog.run (cfg : RateLimitConfig) (times : List ℕ) :
    List (ℕ × Bool) × List ℕ :=
  SlidingWindowLog.runFrom cfg [] times

/-- Membership of a time in the closed window `[a, a + W]`. -/
def inWin (W a s : ℕ) : Bool :=
  decide (a ≤ s) && decide (s ≤ a + W)

/-- Number of allowed decisions of a history that fall in `[a, a + W]`. -/
def histCountAllowed (W a : ℕ) (hist : List (ℕ × Bool)) : ℕ :=
  hist.countP fun p => p.2 && inWin W a p.1

/-- Model of `SlidingWindowCounterRateLimiter.checkLimit`: weigh the previous
window's counter by the remaining overlap, allow while the floored estimate
is below the limit, and increment the current window's counter only on
allowed requests.  (`getOverlapRatio` of the source is inlined as
`overlapFraction`.) -/
def SlidingWindowCounter.checkLimit (cfg : RateLimitConfig)
    (counters : String → Option CounterEntry) (key : String) (now : ℕ) :
    RateLimitResult × (String → Option CounterEntry) :=
  let windowMs := cfg.windowMs
  let maxRequests := cfg.maxRequests
  let windowStart := now - now % windowMs
  let previousWindowStart : ℤ := (windowStart : ℤ) - (windowMs : ℤ)
  let currentKey := key ++ ":" ++ toString windowStart
  let previousKey := key ++ ":" ++ toString previousWindowStart
  let currentWindowCount : ℕ := (MemoryStore.get counters currentKey now).getD 0
  let previousWindowCount : ℕ := (MemoryStore.get counters previousKey now).getD 0
  let positionInWindow : ℕ := now % windowMs
  let overlapFraction : ℚ := 1 - (positionInWindow : ℚ) / (windowMs : ℚ)
  let estimatedCount : ℚ := (currentWindowCount : ℚ) + (previousWindowCount : ℚ) * overlapFraction
  let allowed : Bool := decide (⌊estimatedCount⌋ < (maxRequests : ℤ))
  let counters1 :=
    if allowed then (MemoryStore.increment counters currentKey windowMs now).2 else counters
  let requestsOverLimit : ℤ := ⌊estimatedCount⌋ - (maxRequests : ℤ) + 1
  let timePerRequest : ℚ := (windowMs : ℚ) / (maxRequests : ℚ)
  ({ allowed := allowed
     remaining := max 0 ((maxRequests : ℚ) - (⌊estimatedCount⌋ : ℚ) - (if allowed then 1 else 0))
     resetTime := ⌈((windowStart + windowMs : ℕ) : ℚ) / 1000⌉
     limit := (maxRequests : ℚ)
     retryAfter :=
       if allowed then none
       else some (max 1 ⌈((requestsOverLimit : ℚ) * timePerRequest) / 1000⌉)
     currentCount := (⌊estimatedCount⌋ : ℚ) + (if allowed then 1 else 0) },
   counters1)

/-- One row of the per-algorithm statistics breakdown. -/
structure AlgorithmStats where
  total : ℕ
  allowed : ℕ
  blocked : ℕ
deriving DecidableEq, Repr

/-- The `RateLimiterStats` record, with one explicit field per algorithm id. -/
structure RateLimiterStats where
  totalRequests : ℕ
  allowedRequests : ℕ
  blockedRequests : ℕ
  uniqueKeys : ℕ
  tokenBucket : AlgorithmStats
  leakingBucket : AlgorithmStats
  fixedWindow : AlgorithmStats
  slidingWindowLog : AlgorithmStats
  slidingWindowCounter : AlgorithmStats
deriving DecidableEq, Repr

/-- Lookup of `requestsByAlgorithm[alg]`. -/
def RateLimiterStats.byAlgorithm (s : RateLimiterStats) :
    RateLimitAlgorithm → AlgorithmStats
  | .TOKEN_BUCKET => s.tokenBucket
  | .LEAKING_BUCKET => s.leakingBucket
  | .FIXED_WINDOW => s.fixedWindow
  | .SLIDING_WINDOW_LOG => s.slidingWindowLog
  | .SLIDING_WINDOW_COUNTER => s.slidingWindowCounter

/-- Bump one per-algorithm row: `total++` and `allowed++` or `blocked++`. -/
def bumpAlgorithmStats (g : AlgorithmStats) (allowed : Bool) : AlgorithmStats :=
  if allowed then { total := g.total + 1, allowed := g.allowed + 1, blocked := g.blocked }
  else { total := g.total + 1, allowed := g.allowed, blocked := g.blocked + 1 }

/-- The stats update performed by the middleware after a successful check:
`totalRequests++`, `uniqueKeys := uniqueKeys.size`, the configured
algorithm's row is bumped, and `allowedRequests`/`blockedRequests` follow
the decision. -/
def RateLimiterStats.update (s : RateLimiterStats) (alg : RateLimitAlgorithm)
    (allowed : Bool) (uniqSize : ℕ) : RateLimiterStats :=
  let base : RateLimiterStats :=
    { s with
      totalRequests := s.totalRequests + 1
      uniqueKeys := uniqSize
      allowedRequests := if allowed then s.allowedRequests + 1 else s.allowedRequests
      blockedRequests := if allowed then s.blockedRequests else s.blockedRequests + 1 }
  match alg with
  | .TOKEN_BUCKET => { base with tokenBucket := bumpAlgorithmStats base.tokenBucket allowed }
  | .LEAKING_BUCKET =>
      { base with leakingBucket := bumpAlgorithmStats base.leakingBucket allowed }
  | .FIXED_WINDOW => { base with fixedWindow := bumpAlgorithmStats base.fixedWindow allowed }
  | .SLIDING_WINDOW_LOG =>
      { base with slidingWindowLog := bumpAlgorithmStats base.slidingWindowLog allowed }
  | .SLIDING_WINDOW_COUNTER =>
      { base with slidingWindowCounter := bumpAlgorithmStats base.slidingWindowCounter allowed }

/-- Model of `resetStats()`: all counters and the key sketch are zeroed. -/
def resetStats : RateLimiterStats :=
  { totalRequests := 0, allowedRequests := 0, blockedRequests := 0, uniqueKeys := 0
    tokenBucket := { total := 0, allowed := 0, blocked := 0 }
    leakingBucket := { total := 0, allowed := 0, blocked := 0 }
    fixedWindow := { total := 0, allowed := 0, blocked := 0 }
    slidingWindowLog := { total := 0, allowed := 0, blocked := 0 }
    slidingWindowCounter := { total := 0, allowed := 0, blocked := 0 } }

/-- The outcome of one middleware invocation: whether `next()` was called,
the status of an early rejection response, and the four rate-limit headers
(`none` meaning the header was not set). -/
structure MiddlewareResponse where
  forwarded : Bool
  status : Option ℕ
  headerLimit : Option ℚ
  headerRemaining : Option ℚ
  headerReset : Option ℤ
  headerRetryAfter : Option ℤ
deriving DecidableEq, Repr

/-- One invocation of the middleware produced by
`createRateLimiterMiddleware`, parametric in the outcome of
`rateLimiter.checkLimit` (`Except.error` models a thrown backend error, the
`catch` branch of the source).  On success the stats are updated, headers
are set unless `config.headers === false`, and the request is forwarded or
rejected with `config.statusCode || 429`.  On error the request is
forwarded with no headers and no stats update (fail-open). -/
def runMiddleware (cfg : RateLimitConfig) (stats : RateLimiterStats) (uniqSize : ℕ)
    (check : Except Unit RateLimitResult) : MiddlewareResponse × RateLimiterStats :=
  match check with
  | .error _ =>
      ({ forwarded := true, status := none, headerLimit := none, headerRemaining := none,
         headerReset := none, headerRetryAfter := none }, stats)
  | .ok r =>
      let stats1 := stats.update cfg.algorithm r.allowed uniqSize
      let emitHeaders : Bool := cfg.headers != some false
      let hLimit := if emitHeaders then some r.limit else none
      let hRemaining := if emitHeaders then some r.remaining else none
      let hReset := if emitHeaders then some r.resetTime else none
      let hRetry := if emitHeaders then r.retryAfter else none
      if r.allowed then
        ({ forwarded := true, status := none, headerLimit := hLimit,
           headerRemaining := hRemaining, headerReset := hReset,
           headerRetryAfter := hRetry }, stats1)
      else
        ({ forwarded := false, status := some (jsOrNat cfg.statusCode 429),
           headerLimit := hLimit, headerRemaining := hRemaining, headerReset := hReset,
           headerRetryAfter := hRetry }, stats1)

/-- One per-algorithm stats row is consistent: `total = allowed + blocked`. -/
def statsAligned (g : AlgorithmStats) : Prop :=
  g.total = g.allowed + g.blocked

/-- The stats record is consistent globally and per algorithm. -/
def statsInvariant (s : RateLimiterStats) : Prop :=
  s.totalRequests = s.allowedRequests + s.blockedRequests ∧
    statsAligned s.tokenBucket ∧ statsAligned s.leakingBucket ∧
    statsAligned s.fixedWindow ∧ statsAligned s.slidingWindowLog ∧
    statsAligned s.slidingWindowCounter

/-- A decision record's `retryAfter` is present exactly on a block, and any
present value is at least one second. -/
def retryAfterOk (r : RateLimitResult) : Prop :=
  r.retryAfter.isSome = !r.allowed ∧ 1 ≤ r.retryAfter.getD 1

/-- A standard fixed-window configuration: 5 requests per 10 seconds. -/
def cfgStd : RateLimitConfig :=
  { windowMs := 10000, maxRequests := 5, algorithm := .FIXED_WINDOW,
    headers := none, statusCode := none, bucketSize := none, refillRate := none,
    refillInterval := none, queueSize := none, processingRate := none }

/-- A token-bucket configuration with capacity 1 and the fractional refill
rate 1/2 token per second. -/
def cfgTBHalf : RateLimitConfig :=
  { windowMs := 10000, maxRequests := 10, algorithm := .TOKEN_BUCKET,
    headers := none, statusCode := none, bucketSize := some 1,
    refillRate := some (1 / 2), refillInterval := some 1000,
    queueSize := none, processingRate := none }

/-- A token-bucket configuration with capacity 2 and the fractional refill
rate 1/2 token per second. -/
def cfgTBHalf2 : RateLimitConfig :=
  { windowMs := 10000, maxRequests := 10, algorithm := .TOKEN_BUCKET,
    headers := none, statusCode := none, bucketSize := some 2,
    refillRate := some (1 / 2), refillInterval := some 1000,
    queueSize := none, processingRate := none }

/-- A token-bucket configuration with integral parameters: capacity 2,
1 token per second. -/
def cfgTBInt : RateLimitConfig :=
  { windowMs := 10000, maxRequests := 10, algorithm := .TOKEN_BUCKET,
    headers := none, statusCode := none, bucketSize := some 2,
    refillRate := some 1, refillInterval := some 1000,
    queueSize := none, processingRate := none }

/-- A leaking-bucket configuration: queue of 2, 1 request per second. -/
def cfgLB : RateLimitConfig :=
  { windowMs := 10000, maxRequests := 10, algorithm := .LEAKING_BUCKET,
    headers := none, statusCode := none, bucketSize := none, refillRate := none,
    refillInterval := none, queueSize := some 2, processingRate := some 1 }

/-- A leaking-bucket configuration with the fractional queue size 3/2. -/
def cfgLBFrac : RateLimitConfig :=
  { windowMs := 10000, maxRequests := 10, algorithm := .LEAKING_BUCKET,
    headers := none, statusCode := none, bucketSize := none, refillRate := none,
    refillInterval := none, queueSize := some (3 / 2), processingRate := some 1 }

/-- A sliding-window-log configuration: 2 requests per 10 milliseconds. -/
def cfgSWL : RateLimitConfig :=
  { windowMs := 10, maxRequests := 2, algorithm := .SLIDING_WINDOW_LOG,
    headers := none, statusCode := none, bucketSize := none, refillRate := none,
    refillInterval := none, queueSize := none, processingRate := none }

/-- A configuration carrying positive parameters for all five algorithms. -/
def cfgAll : RateLimitConfig :=
  { windowMs := 10000, maxRequests := 5, algorithm := .TOKEN_BUCKET,
    headers := none, statusCode := none, bucketSize := some 2,
    refillRate := some 1, refillInterval := some 1000,
    queueSize := some 2, processingRate := some 1 }

/-- A sample consistent statistics record. -/
def statsEx : RateLimiterStats :=
  { totalRequests := 3, allowedRequests := 2, blockedRequests := 1, uniqueKeys := 2
    tokenBucket := { total := 1, allowed := 1, blocked := 0 }
    leakingBucket := { total := 0, allowed := 0, blocked := 0 }
    fixedWindow := { total := 2, allowed := 1, blocked := 1 }
    slidingWindowLog := { total := 0, allowed := 0, blocked := 0 }
    slidingWindowCounter := { total := 0, allowed := 0, blocked := 0 } }

/-- A sample allowed decision record. -/
def resAllowedEx : RateLimitResult :=
  { allowed := true, remaining := 4, resetTime := 10, limit := 5,
    retryAfter := none, currentCount := 1 }

/-- The stored state after two leaking-bucket checks at `t = 0` on a fresh
key under `cfgLB` (both admitted: the queue holds two arrival times). -/
def lbTwoState : LeakingBucketState :=
  (LeakingBucket.checkLimit cfgLB (some (LeakingBucket.checkLimit cfgLB none 0).2) 0).2

/-- The decision of a third leaking-bucket check at `t = 0` (blocked: the
queue of size 2 is full). -/
def lbThird : RateLimitResult :=
  (LeakingBucket.checkLimit cfgLB (some lbTwoState) 0).1

/-- The timestamps the sliding-window-log check sees inside the window:
the pruned log re-filtered by `getTimestamps` (the double filter mirrors
`removeOldTimestamps` followed by `getTimestamps`). -/
def SlidingWindowLog.windowTimestamps (cfg : RateLimitConfig) (log : List ℕ) (now : ℕ) :
    List ℕ :=
  (log.filter fun ts => decide (now - cfg.windowMs ≤ ts)).filter
    fun ts => decide (now - cfg.windowMs ≤ ts)

/-- The weighted estimate of the sliding-window-counter check:
`current + previous × (1 − positionInWindow / windowMs)`. -/
def SlidingWindowCounter.estimatedCountOf (cfg : RateLimitConfig)
    (counters : String → Option CounterEntry) (key : String) (now : ℕ) : ℚ :=
  ((MemoryStore.get counters (key ++ ":" ++ toString (now - now % cfg.windowMs)) now).getD 0 : ℚ)
    + ((MemoryStore.get counters
          (key ++ ":" ++ toString (((now - now % cfg.windowMs : ℕ) : ℤ) - (cfg.windowMs : ℤ)))
          now).getD 0 : ℚ)
      * (1 - ((now % cfg.windowMs : ℕ) : ℚ) / (cfg.windowMs : ℚ))

/-!  Theorems.  Each claim of the specification is settled by exactly one
theorem below; auxiliary lemmas are shared. -/

/-- C1 (confirmed): when the algorithm's check throws during a middleware
invocation, the middleware forwards the request (`next()` is called), emits
none of the `X-RateLimit-Limit` / `X-RateLimit-Remaining` /
`X-RateLimit-Reset` / `Retry-After` headers, and leaves the whole stats
record — `totalRequests`, `allowedRequests`, `blockedRequests` and every
per-algorithm row — unchanged. -/
theorem middleware_fail_open (cfg : RateLimitConfig) (stats : RateLimiterStats)
    (uniqSize : ℕ) (e : Unit) :
    runMiddleware cfg stats uniqSize (.error e)
      = ({ forwarded := true, status := none, headerLimit := none, headerRemaining := none,
           headerReset := none, headerRetryAfter := none }, stats) := rfl

/-- C9 (confirmed): `MemoryStore.increment` starts a fresh counter at `1`
with expiry `now + windowMs` when the key is absent or expired, returning
`1`; otherwise it returns the incremented stored value and leaves the
expiry timestamp unchanged. -/
theorem memoryStore_increment_spec (counters : String → Option CounterEntry)
    (key : String) (windowMs now : ℕ) :
    ((counters key = none ∨ ∃ s, counters key = some s ∧ s.expiresAt ≤ now) →
      (MemoryStore.increment counters key windowMs now).1 = 1 ∧
      (MemoryStore.increment counters key windowMs now).2 key
        = some { value := 1, expiresAt := now + windowMs }) ∧
    (∀ s, counters key = some s → now < s.expiresAt →
      (MemoryStore.increment counters key windowMs now).1 = s.value + 1 ∧
      (MemoryStore.increment counters key windowMs now).2 key
        = some { value := s.value + 1, expiresAt := s.expiresAt }) := by
  constructor
  · rintro (h | ⟨s, hs, hexp⟩)
    · simp [MemoryStore.increment, h]
    · simp [MemoryStore.increment, hs, if_pos hexp]
  · intro s hs hlive
    simp [MemoryStore.increment, hs, if_neg (not_le.mpr hlive)]

/-- C9 witness: incrementing an absent key. -/
theorem memoryStore_increment_spec_witness :
    (MemoryStore.increment (fun _ => none) "k" 10 5).1 = 1 ∧
    (MemoryStore.increment (fun _ => none) "k" 10 5).2 "k"
      = some { value := 1, expiresAt := 15 } :=
  (memoryStore_increment_spec (fun _ => none) "k" 10 5).1 (Or.inl rfl)

/-- C10 (confirmed): `totalRequests = allowedRequests + blockedRequests`
and, in every per-algorithm row, `total = allowed + blocked`; every
middleware invocation (allowed, blocked, or the error path) and
`resetStats` preserve this invariant. -/
theorem stats_invariant_preserved (cfg : RateLimitConfig) (stats : RateLimiterStats)
    (uniqSize : ℕ) (check : Except Unit RateLimitResult)
    (h : statsInvariant stats) :
    statsInvariant (runMiddleware cfg stats uniqSize check).2 ∧
    statsInvariant resetStats := by
  constructor
  · cases check with
    | error e => exact h
    | ok r =>
      obtain ⟨h0, h1, h2, h3, h4, h5⟩ := h
      have hupd : statsInvariant (stats.update cfg.algorithm r.allowed uniqSize) := by
        cases hA : r.allowed <;> cases cfg.algorithm <;>
          simp_all [RateLimiterStats.update, bumpAlgorithmStats, statsInvariant,
            statsAligned] <;> omega
      cases hA : r.allowed <;>
        simp_all [runMiddleware]
  · exact ⟨rfl, rfl, rfl, rfl, rfl, rfl⟩

/-- C10 witness: one allowed fixed-window invocation on a consistent record. -/
theorem stats_invariant_preserved_witness :
    statsInvariant (runMiddleware cfgStd statsEx 3 (.ok resAllowedEx)).2 ∧
    statsInvariant resetStats :=
  stats_invariant_preserved cfgStd statsEx 3 (.ok resAllowedEx)
    ⟨rfl, rfl, rfl, rfl, rfl, rfl⟩

unseal Rat.add Rat.mul Rat.inv Rat.sub in
/-- C4 counterexample: the very first fixed-window request for a fresh key
(5 per 10 s) reports `limit = 5`, `currentCount = 1`, `allowed = true` and
`remaining = 4`, while the claimed formula
`max(0, limit − currentCount − (allowed ? 1 : 0))` yields `3`. -/
theorem remaining_formula_counterexample :
    (FixedWindow.checkLimit cfgStd (fun _ => none) "client" 0).1.allowed = true ∧
    (FixedWindow.checkLimit cfgStd (fun _ => none) "client" 0).1.limit = 5 ∧
    (FixedWindow.checkLimit cfgStd (fun _ => none) "client" 0).1.currentCount = 1 ∧
    (FixedWindow.checkLimit cfgStd (fun _ => none) "client" 0).1.remaining = 4 ∧
    ¬((4 : ℚ) = max 0 (5 - 1 - 1)) := by decide

/-- C4 (corrected): for the counter-based algorithms (fixed window and
sliding window counter) the reported `remaining` equals
`max(0, limit − currentCount)` over the values reported in the same
decision record — the reported `currentCount` already includes the
just-admitted request, so the claim's extra `(allowed ? 1 : 0)` term is
counted once too often. -/
theorem remaining_eq_limit_sub_currentCount (cfg : RateLimitConfig)
    (counters : String → Option CounterEntry) (key : String) (now : ℕ) :
    ((FixedWindow.checkLimit cfg counters key now).1.remaining
       = max 0 ((FixedWindow.checkLimit cfg counters key now).1.limit
           - (FixedWindow.checkLimit cfg counters key now).1.currentCount)) ∧
    ((SlidingWindowCounter.checkLimit cfg counters key now).1.remaining
       = max 0 ((SlidingWindowCounter.checkLimit cfg counters key now).1.limit
           - (SlidingWindowCounter.checkLimit cfg counters key now).1.currentCount)) := by
  refine ⟨rfl, ?_⟩
  simp only [SlidingWindowCounter.checkLimit, sub_add_eq_sub_sub]

unseal Rat.add Rat.mul Rat.inv Rat.sub in
/-- C6 counterexample: token bucket with capacity 2, refill 1/2 token per
second.  After a check at `t = 0` and one at `t = 1000` the stored token
count is 1/2 and the reported `remaining` is 1/2, whereas the claimed
`max(0, floor(tokens))` is `0` — the source applies no floor. -/
theorem tokenBucket_remaining_floor_counterexample :
    (TokenBucket.checkLimit cfgTBHalf2
        (some (TokenBucket.checkLimit cfgTBHalf2 none 0).2) 1000).2.tokens = 1 / 2 ∧
    (TokenBucket.checkLimit cfgTBHalf2
        (some (TokenBucket.checkLimit cfgTBHalf2 none 0).2) 1000).1.remaining = 1 / 2 ∧
    ¬((1 : ℚ) / 2 = max 0 ((⌊(1 : ℚ) / 2⌋ : ℤ) : ℚ)) := by decide

/-- C6 (corrected): every token-bucket decision reports
`limit = bucketSize` and `remaining = max(0, tokens)` where `tokens` is the
stored token count after the check — without the claimed `floor`, so a
fractional token count is reported fractionally. -/
theorem tokenBucket_limit_remaining (cfg : RateLimitConfig)
    (stored : Option TokenBucketState) (now : ℕ) :
    (TokenBucket.checkLimit cfg stored now).1.limit = TokenBucket.bucketSizeOf cfg ∧
    (TokenBucket.checkLimit cfg stored now).1.remaining
      = max 0 (TokenBucket.checkLimit cfg stored now).2.tokens := ⟨rfl, rfl⟩

unseal Rat.add Rat.mul Rat.inv Rat.sub in
/-- C5 counterexample: leaking bucket with `queueSize = 2`,
`processingRate = 1`.  Three checks at `t = 0` on a fresh key: the third is
blocked with a full queue of length 2, and the source reports
`resetTime = 1` (the time until one single request leaks), while the
claimed `now + (queue length / processingRate × 1000)` in Unix seconds
is `2`. -/
theorem leakingBucket_reset_counterexample :
    lbThird.allowed = false ∧
    (LeakingBucket.checkLimit cfgLB (some lbTwoState) 0).2.queue.length = 2 ∧
    lbThird.resetTime = 1 ∧
    ⌈((0 : ℚ) + (2 : ℚ) / LeakingBucket.processingRateOf cfgLB * 1000) / 1000⌉ = (2 : ℤ) := by
  decide

/-- C5 (corrected): for every blocked leaking-bucket check (with
`queueSize ≥ 1` and `processingRate > 0`), `retryAfter` equals
`ceil(1 / processingRate)` as claimed, but the reset time is
`ceil((now + 1000 / processingRate) / 1000)` — the instant the *next
single* request leaks — not the claimed time for the whole queue to
drain. -/
theorem leakingBucket_blocked_retry (cfg : RateLimitConfig)
    (stored : Option LeakingBucketState) (now : ℕ)
    (_hpr : 0 < LeakingBucket.processingRateOf cfg)
    (hqs : 1 ≤ LeakingBucket.queueSizeOf cfg)
    (hblocked : (LeakingBucket.checkLimit cfg stored now).1.allowed = false) :
    (LeakingBucket.checkLimit cfg stored now).1.retryAfter
        = some ⌈1 / LeakingBucket.processingRateOf cfg⌉ ∧
    (LeakingBucket.checkLimit cfg stored now).1.resetTime
        = ⌈((now : ℚ) + 1000 / LeakingBucket.processingRateOf cfg) / 1000⌉ := by
  simp only [LeakingBucket.checkLimit] at hblocked ⊢
  rw [decide_eq_false_iff_not, not_lt] at hblocked
  have hlen : 0 <
      (LeakingBucket.leak (LeakingBucket.processingRateOf cfg)
        (stored.getD { queue := [], lastLeakTime := now }) now).queue.length := by
    have h1 : (1 : ℚ) ≤
        ((LeakingBucket.leak (LeakingBucket.processingRateOf cfg)
          (stored.getD { queue := [], lastLeakTime := now }) now).queue.length : ℚ) :=
      le_trans hqs hblocked
    exact_mod_cast lt_of_lt_of_le one_pos h1
  have hdiv : (1000 : ℚ) / LeakingBucket.processingRateOf cfg / 1000
      = 1 / LeakingBucket.processingRateOf cfg := by
    rw [div_div, mul_comm, ← div_div]
    norm_num
  simp [not_lt.mpr hblocked, hlen, hdiv]

unseal Rat.add Rat.mul Rat.inv Rat.sub in
/-- C5 witness: the blocked third check at `t = 0` under `cfgLB`. -/
theorem leakingBucket_blocked_retry_witness :
    (LeakingBucket.checkLimit cfgLB (some lbTwoState) 0).1.retryAfter
        = some ⌈1 / LeakingBucket.processingRateOf cfgLB⌉ ∧
    (LeakingBucket.checkLimit cfgLB (some lbTwoState) 0).1.resetTime
        = ⌈(((0 : ℕ) : ℚ) + 1000 / LeakingBucket.processingRateOf cfgLB) / 1000⌉ :=
  leakingBucket_blocked_retry cfgLB (some lbTwoState) 0 (by decide) (by decide) (by decide)

unseal Rat.add Rat.mul Rat.inv Rat.sub in
/-- C8 counterexample: with the fractional queue size `3/2` (which
satisfies the claim's hypothesis `queueSize ≥ 1`), two checks at `t = 0`
on a fresh key leave a stored queue of length 2, exceeding `queueSize`:
the admission test `length < queueSize` lets length 1 pass below 3/2 and
the append then overshoots. -/
theorem leakingBucket_queue_counterexample :
    (1 : ℚ) ≤ LeakingBucket.queueSizeOf cfgLBFrac ∧
    ({ queue := [0, 0], lastLeakTime := 0 } : LeakingBucketState)
      ∈ LeakingBucket.run cfgLBFrac [0, 0] ∧
    ({ queue := [0, 0], lastLeakTime := 0 } : LeakingBucketState).queue.length = 2 ∧
    ¬((2 : ℚ) ≤ LeakingBucket.queueSizeOf cfgLBFrac) := by decide

/-- Leaking only shortens the queue. -/
theorem leak_length_le (processingRate : ℚ) (state : LeakingBucketState) (now : ℕ) :
    (LeakingBucket.leak processingRate state now).queue.length ≤ state.queue.length := by
  simp only [LeakingBucket.leak]
  split
  · simp [Nat.sub_le]
  · exact le_refl _

/-- One leaking-bucket check keeps the queue length within
`⌈queueSize⌉`. -/
theorem leakingBucket_check_length_le (cfg : RateLimitConfig)
    (stored : Option LeakingBucketState) (now : ℕ)
    (hq1 : 1 ≤ LeakingBucket.queueSizeOf cfg)
    (hq : ∀ s, stored = some s →
      (s.queue.length : ℤ) ≤ ⌈LeakingBucket.queueSizeOf cfg⌉) :
    ((LeakingBucket.checkLimit cfg stored now).2.queue.length : ℤ)
      ≤ ⌈LeakingBucket.queueSizeOf cfg⌉ := by
  have h0 : ((stored.getD { queue := [], lastLeakTime := now }).queue.length : ℤ)
      ≤ ⌈LeakingBucket.queueSizeOf cfg⌉ := by
    cases stored with
    | none =>
        have : (0 : ℤ) < ⌈LeakingBucket.queueSizeOf cfg⌉ :=
          Int.ceil_pos.mpr (lt_of_lt_of_le one_pos hq1)
        simpa using this.le
    | some s => simpa using hq s rfl
  have hleak : ((LeakingBucket.leak (LeakingBucket.processingRateOf cfg)
      (stored.getD { queue := [], lastLeakTime := now }) now).queue.length : ℤ)
      ≤ ⌈LeakingBucket.queueSizeOf cfg⌉ :=
    le_trans (by exact_mod_cast leak_length_le _ _ _) h0
  simp only [LeakingBucket.checkLimit]
  by_cases hall : ((LeakingBucket.leak (LeakingBucket.processingRateOf cfg)
      (stored.getD { queue := [], lastLeakTime := now }) now).queue.length : ℚ)
      < LeakingBucket.queueSizeOf cfg
  · have hlt : ((LeakingBucket.leak (LeakingBucket.processingRateOf cfg)
        (stored.getD { queue := [], lastLeakTime := now }) now).queue.length : ℤ)
        < ⌈LeakingBucket.queueSizeOf cfg⌉ := Int.lt_ceil.mpr hall
    simp only [decide_eq_true hall, if_true]
    simp only [List.length_append, List.length_cons, List.length_nil]
    push_cast
    omega
  · simp only [decide_eq_false hall, if_false]
    exact hleak

/-- Every state of a leaking-bucket execution keeps its queue length within
`⌈queueSize⌉`. -/
theorem leakingBucket_runFrom_length (cfg : RateLimitConfig)
    (hq1 : 1 ≤ LeakingBucket.queueSizeOf cfg) :
    ∀ (ts : List ℕ) (stored : Option LeakingBucketState),
      (∀ s, stored = some s →
        (s.queue.length : ℤ) ≤ ⌈LeakingBucket.queueSizeOf cfg⌉) →
      ∀ s ∈ LeakingBucket.runFrom cfg stored ts,
        (s.queue.length : ℤ) ≤ ⌈LeakingBucket.queueSizeOf cfg⌉ := by
  intro ts
  induction ts with
  | nil => intro stored _ s hs; simp [LeakingBucket.runFrom] at hs
  | cons t ts ih =>
      intro stored hstored s hs
      simp only [LeakingBucket.runFrom, List.mem_cons] at hs
      have hstep := leakingBucket_check_length_le cfg stored t hq1 hstored
      rcases hs with rfl | hs
      · exact hstep
      · exact ih (some (LeakingBucket.checkLimit cfg stored t).2)
          (by rintro s1 ⟨rfl⟩; exact hstep) s hs

/-- C8 (corrected): in any sequence of leaking-bucket checks on one key
with `queueSize ≥ 1`, the stored queue's length never exceeds
`⌈queueSize⌉` after any check (which is `queueSize` itself whenever
`queueSize` is an integer, as in every shipped configuration), and a
request is appended exactly when the post-leak queue length is strictly
below `queueSize`. -/
theorem leakingBucket_queue_bounded (cfg : RateLimitConfig)
    (hq1 : 1 ≤ LeakingBucket.queueSizeOf cfg) (times : List ℕ)
    (s : LeakingBucketState) (hs : s ∈ LeakingBucket.run cfg times)
    (stored : Option LeakingBucketState) (now : ℕ) :
    (s.queue.length : ℤ) ≤ ⌈LeakingBucket.queueSizeOf cfg⌉ ∧
    (LeakingBucket.checkLimit cfg stored now).2.queue
      = (if ((LeakingBucket.leak (LeakingBucket.processingRateOf cfg)
              (stored.getD { queue := [], lastLeakTime := now }) now).queue.length : ℚ)
            < LeakingBucket.queueSizeOf cfg
         then (LeakingBucket.leak (LeakingBucket.processingRateOf cfg)
              (stored.getD { queue := [], lastLeakTime := now }) now).queue ++ [now]
         else (LeakingBucket.leak (LeakingBucket.processingRateOf cfg)
              (stored.getD { queue := [], lastLeakTime := now }) now).queue) := by
  constructor
  · exact leakingBucket_runFrom_length cfg hq1 times none (by rintro s1 ⟨⟩) s hs
  · simp only [LeakingBucket.checkLimit]
    by_cases hall : ((LeakingBucket.leak (LeakingBucket.processingRateOf cfg)
        (stored.getD { queue := [], lastLeakTime := now }) now).queue.length : ℚ)
        < LeakingBucket.queueSizeOf cfg <;>
      simp [hall]

unseal Rat.add Rat.mul Rat.inv Rat.sub in
/-- C8 witness: three checks at `t = 0` under `cfgLB` (queue size 2). -/
theorem leakingBucket_queue_bounded_witness :
    (({ queue := [0, 0], lastLeakTime := 0 } : LeakingBucketState).queue.length : ℤ)
        ≤ ⌈LeakingBucket.queueSizeOf cfgLB⌉ ∧
    (LeakingBucket.checkLimit cfgLB (some lbTwoState) 0).2.queue
      = (if ((LeakingBucket.leak (LeakingBucket.processingRateOf cfgLB)
              ((some lbTwoState).getD { queue := [], lastLeakTime := 0 }) 0).queue.length : ℚ)
            < LeakingBucket.queueSizeOf cfgLB
         then (LeakingBucket.leak (LeakingBucket.processingRateOf cfgLB)
              ((some lbTwoState).getD { queue := [], lastLeakTime := 0 }) 0).queue ++ [0]
         else (LeakingBucket.leak (LeakingBucket.processingRateOf cfgLB)
              ((some lbTwoState).getD { queue := [], lastLeakTime := 0 }) 0).queue) :=
  leakingBucket_queue_bounded cfgLB (by decide) [0, 0, 0]
    { queue := [0, 0], lastLeakTime := 0 } (by decide) (some lbTwoState) 0

/-- A positive rational's ceiling is at least one. -/
theorem one_le_ceil_of_pos {x : ℚ} (hx : 0 < x) : 1 ≤ ⌈x⌉ := by
  have := Int.ceil_pos.mpr hx
  omega

/-- A blocked leaking-bucket check leaves a non-empty queue (the full
queue of at least `queueSize ≥ 1` entries survives the check). -/
theorem leakingBucket_blocked_queue_pos (cfg : RateLimitConfig)
    (stored : Option LeakingBucketState) (now : ℕ)
    (hqs : 1 ≤ LeakingBucket.queueSizeOf cfg)
    (hblocked : (LeakingBucket.checkLimit cfg stored now).1.allowed = false) :
    0 < (LeakingBucket.checkLimit cfg stored now).2.queue.length := by
  simp only [LeakingBucket.checkLimit] at hblocked ⊢
  rw [decide_eq_false_iff_not, not_lt] at hblocked
  simp only [decide_eq_false (not_lt.mpr hblocked), if_false]
  have h1 : (1 : ℚ) ≤
      ((LeakingBucket.leak (LeakingBucket.processingRateOf cfg)
        (stored.getD { queue := [], lastLeakTime := now }) now).queue.length : ℚ) :=
    le_trans hqs hblocked
  exact_mod_cast lt_of_lt_of_le one_pos h1


/-- The token-bucket `retryAfter`: absent when allowed, otherwise
`ceil(refillInterval / 1000)`. -/
theorem tokenBucket_retryAfter_ite (cfg : RateLimitConfig)
    (stored : Option TokenBucketState) (now : ℕ) :
    (TokenBucket.checkLimit cfg stored now).1.retryAfter
      = if (TokenBucket.checkLimit cfg stored now).1.allowed then none
        else some ⌈TokenBucket.refillIntervalOf cfg / 1000⌉ := rfl

/-- The leaking-bucket `retryAfter`: present exactly when blocked with a
non-empty surviving queue. -/
theorem leakingBucket_retryAfter_ite (cfg : RateLimitConfig)
    (stored : Option LeakingBucketState) (now : ℕ) :
    (LeakingBucket.checkLimit cfg stored now).1.retryAfter
      = if !(LeakingBucket.checkLimit cfg stored now).1.allowed
           && decide (0 < (LeakingBucket.checkLimit cfg stored now).2.queue.length) then
          some ⌈1000 / LeakingBucket.processingRateOf cfg / 1000⌉
        else none := rfl

/-- The fixed-window `retryAfter`: absent when allowed, otherwise the
seconds from `now` to the reported reset. -/
theorem fixedWindow_retryAfter_ite (cfg : RateLimitConfig)
    (counters : String → Option CounterEntry) (key : String) (now : ℕ) :
    (FixedWindow.checkLimit cfg counters key now).1.retryAfter
      = if (FixedWindow.checkLimit cfg counters key now).1.allowed then none
        else some ⌈(((FixedWindow.checkLimit cfg counters key now).1.resetTime : ℚ) * 1000
            - (now : ℚ)) / 1000⌉ := rfl

/-- The fixed-window reset: the end of the epoch-aligned window, in Unix
seconds rounded up. -/
theorem FixedWindow.resetTime_eq (cfg : RateLimitConfig)
    (counters : String → Option CounterEntry) (key : String) (now : ℕ) :
    (FixedWindow.checkLimit cfg counters key now).1.resetTime
      = ⌈((now - now % cfg.windowMs + cfg.windowMs : ℕ) : ℚ) / 1000⌉ := rfl

/-- The sliding-window-log admission test: strictly fewer surviving
timestamps than the limit. -/
theorem SlidingWindowLog.allowed_eq (cfg : RateLimitConfig) (log : List ℕ) (now : ℕ) :
    (SlidingWindowLog.checkLimit cfg log now).1.allowed
      = decide ((SlidingWindowLog.windowTimestamps cfg log now).length < cfg.maxRequests) := rfl

/-- The sliding-window-log `retryAfter`: present exactly when blocked with
surviving timestamps, clamped below by 1. -/
theorem slidingWindowLog_retryAfter_ite (cfg : RateLimitConfig) (log : List ℕ) (now : ℕ) :
    (SlidingWindowLog.checkLimit cfg log now).1.retryAfter
      = if !(SlidingWindowLog.checkLimit cfg log now).1.allowed
           && decide (0 < (SlidingWindowLog.windowTimestamps cfg log now).length) then
          some (max 1 ⌈(((listMin (SlidingWindowLog.windowTimestamps cfg log now)
              + cfg.windowMs : ℕ) : ℚ) - (now : ℚ)) / 1000⌉)
        else none := rfl

/-- The sliding-window-counter `retryAfter`: absent when allowed,
otherwise clamped below by 1. -/
theorem slidingWindowCounter_retryAfter_ite (cfg : RateLimitConfig)
    (counters : String → Option CounterEntry) (key : String) (now : ℕ) :
    (SlidingWindowCounter.checkLimit cfg counters key now).1.retryAfter
      = if (SlidingWindowCounter.checkLimit cfg counters key now).1.allowed then none
        else some (max 1
          ⌈(((⌊SlidingWindowCounter.estimatedCountOf cfg counters key now⌋
                - (cfg.maxRequests : ℤ) + 1 : ℤ) : ℚ)
              * ((cfg.windowMs : ℚ) / (cfg.maxRequests : ℚ))) / 1000⌉) := rfl

/-- C7 (confirmed): for every check by any of the five algorithms (window,
limit and the algorithm-specific parameters positive), `retryAfter` is
present exactly when `allowed = false`, and any present value is at least
1 second. -/
theorem retryAfter_iff_blocked (cfg : RateLimitConfig)
    (hW : 0 < cfg.windowMs) (hM : 1 ≤ cfg.maxRequests)
    (hri : 0 < TokenBucket.refillIntervalOf cfg)
    (hpr : 0 < LeakingBucket.processingRateOf cfg)
    (hqs : 1 ≤ LeakingBucket.queueSizeOf cfg) :
    (∀ stored now, retryAfterOk (TokenBucket.checkLimit cfg stored now).1) ∧
    (∀ stored now, retryAfterOk (LeakingBucket.checkLimit cfg stored now).1) ∧
    (∀ counters key now, retryAfterOk (FixedWindow.checkLimit cfg counters key now).1) ∧
    (∀ log now, retryAfterOk (SlidingWindowLog.checkLimit cfg log now).1) ∧
    (∀ counters key now,
      retryAfterOk (SlidingWindowCounter.checkLimit cfg counters key now).1) := by
  refine ⟨?_, ?_, ?_, ?_, ?_⟩
  · -- token bucket
    intro stored now
    unfold retryAfterOk
    rw [tokenBucket_retryAfter_ite]
    cases hA : (TokenBucket.checkLimit cfg stored now).1.allowed <;> simp [hA]
    exact hri
  · -- leaking bucket
    intro stored now
    unfold retryAfterOk
    rw [leakingBucket_retryAfter_ite]
    cases hA : (LeakingBucket.checkLimit cfg stored now).1.allowed
    · have hq := leakingBucket_blocked_queue_pos cfg stored now hqs hA
      simp [hA, hq]
      exact hpr
    · simp [hA]
  · -- fixed window
    intro counters key now
    unfold retryAfterOk
    rw [fixedWindow_retryAfter_ite]
    cases hA : (FixedWindow.checkLimit cfg counters key now).1.allowed <;> simp [hA]
    rw [FixedWindow.resetTime_eq]
    have hmod : now % cfg.windowMs < cfg.windowMs := Nat.mod_lt _ hW
    have hnow : now < now - now % cfg.windowMs + cfg.windowMs := by omega
    have hceil : (((now - now % cfg.windowMs + cfg.windowMs : ℕ) : ℚ) / 1000)
        ≤ ((⌈((now - now % cfg.windowMs + cfg.windowMs : ℕ) : ℚ) / 1000⌉ : ℤ) : ℚ) :=
      Int.le_ceil _
    calc (now : ℚ) < ((now - now % cfg.windowMs + cfg.windowMs : ℕ) : ℚ) := by
          exact_mod_cast hnow
      _ ≤ ((⌈((now - now % cfg.windowMs + cfg.windowMs : ℕ) : ℚ) / 1000⌉ : ℤ) : ℚ) * 1000 := by
          rw [div_le_iff₀ (by norm_num : (0 : ℚ) < 1000)] at hceil
          exact hceil
  · -- sliding window log
    intro log now
    unfold retryAfterOk
    rw [slidingWindowLog_retryAfter_ite]
    cases hA : (SlidingWindowLog.checkLimit cfg log now).1.allowed
    · have hA2 := hA
      rw [SlidingWindowLog.allowed_eq, decide_eq_false_iff_not, not_lt] at hA2
      have hpos : 0 < (SlidingWindowLog.windowTimestamps cfg log now).length :=
        lt_of_lt_of_le (Nat.lt_of_lt_of_le Nat.zero_lt_one hM) hA2
      simp [hA, hpos]
    · simp [hA]
  · -- sliding window counter
    intro counters key now
    unfold retryAfterOk
    rw [slidingWindowCounter_retryAfter_ite]
    cases hA : (SlidingWindowCounter.checkLimit cfg counters key now).1.allowed <;>
      simp [hA]

unseal Rat.add Rat.mul Rat.inv Rat.sub in
/-- C7 witness: first checks on fresh keys under `cfgAll` for all five
algorithms. -/
theorem retryAfter_iff_blocked_witness :
    retryAfterOk (TokenBucket.checkLimit cfgAll none 0).1 ∧
    retryAfterOk (LeakingBucket.checkLimit cfgAll none 0).1 ∧
    retryAfterOk (FixedWindow.checkLimit cfgAll (fun _ => none) "k" 0).1 ∧
    retryAfterOk (SlidingWindowLog.checkLimit cfgAll [] 0).1 ∧
    retryAfterOk (SlidingWindowCounter.checkLimit cfgAll (fun _ => none) "k" 0).1 := by
  have h := retryAfter_iff_blocked cfgAll (by decide) (by decide) (by decide) (by decide)
    (by decide)
  exact ⟨h.1 none 0, h.2.1 none 0, h.2.2.1 (fun _ => none) "k" 0, h.2.2.2.1 [] 0,
    h.2.2.2.2 (fun _ => none) "k" 0⟩

unseal Rat.add Rat.mul Rat.inv Rat.sub in
/-- C3 counterexample: capacity 1, refill rate 1/2 token per second — all
parameters satisfy the claim's hypotheses (`bucketSize ≥ 1`, positive
`refillRate` and `refillInterval`, non-decreasing clock).  The check at
`t = 0` drains the bucket; at `t = 1000` the refill adds 1/2 token and the
check consumes a whole one, leaving the stored count at −1/2 < 0. -/
theorem tokenBucket_negative_counterexample :
    ({ tokens := -(1 / 2), lastRefillTime := 1000 } : TokenBucketState)
      ∈ TokenBucket.run cfgTBHalf [0, 1000] ∧
    ¬(0 ≤ ({ tokens := -(1 / 2), lastRefillTime := 1000 } : TokenBucketState).tokens) := by
  decide

/-- A fresh token-bucket key behaves as a stored full bucket stamped
`now`. -/
theorem TokenBucket.checkLimit_none (cfg : RateLimitConfig) (now : ℕ) :
    TokenBucket.checkLimit cfg none now
      = TokenBucket.checkLimit cfg
          (some { tokens := TokenBucket.bucketSizeOf cfg, lastRefillTime := now }) now := rfl

/-- One token-bucket check with integral capacity `b` and integral refill
rate `r` keeps the token count a natural number at most `b`, and stamps a
refill time no later than `now`. -/
theorem tokenBucket_check_step (cfg : RateLimitConfig) (b r : ℕ)
    (hb : TokenBucket.bucketSizeOf cfg = (b : ℚ))
    (hr : TokenBucket.refillRateOf cfg = (r : ℚ))
    (hri : 0 < TokenBucket.refillIntervalOf cfg)
    (s : TokenBucketState) (now : ℕ)
    (hlast : s.lastRefillTime ≤ now)
    (hn : ∃ n : ℕ, s.tokens = (n : ℚ) ∧ n ≤ b) :
    (TokenBucket.checkLimit cfg (some s) now).2.lastRefillTime ≤ now ∧
    ∃ n : ℕ, (TokenBucket.checkLimit cfg (some s) now).2.tokens = (n : ℚ) ∧ n ≤ b := by
  obtain ⟨n, hn, hnb⟩ := hn
  have hk0 : 0 ≤ ⌊((now : ℚ) - (s.lastRefillTime : ℚ)) / TokenBucket.refillIntervalOf cfg⌋ := by
    apply Int.floor_nonneg.mpr
    apply div_nonneg _ hri.le
    rw [sub_nonneg]
    exact_mod_cast hlast
  have hcast : (n : ℚ)
        + ((⌊((now : ℚ) - (s.lastRefillTime : ℚ)) / TokenBucket.refillIntervalOf cfg⌋ : ℤ) : ℚ)
          * (r : ℚ)
      = ((n + (⌊((now : ℚ) - (s.lastRefillTime : ℚ))
            / TokenBucket.refillIntervalOf cfg⌋).toNat * r : ℕ) : ℚ) := by
    have h1 : ((⌊((now : ℚ) - (s.lastRefillTime : ℚ))
          / TokenBucket.refillIntervalOf cfg⌋.toNat : ℕ) : ℚ)
        = ((⌊((now : ℚ) - (s.lastRefillTime : ℚ))
            / TokenBucket.refillIntervalOf cfg⌋ : ℤ) : ℚ) := by
      exact_mod_cast Int.toNat_of_nonneg hk0
    rw [Nat.cast_add, Nat.cast_mul, h1]
  constructor
  · simp only [TokenBucket.checkLimit, Option.getD_some]
    split
    · exact le_refl now
    · exact hlast
  · simp only [TokenBucket.checkLimit, Option.getD_some, hb, hr, hn, hcast, ← Nat.cast_min]
    by_cases hm : 0 < min b
        ((n + (⌊((now : ℚ) - (s.lastRefillTime : ℚ))
            / TokenBucket.refillIntervalOf cfg⌋).toNat * r : ℕ))
    · rw [if_pos]
      · refine ⟨min b ((n + (⌊((now : ℚ) - (s.lastRefillTime : ℚ))
            / TokenBucket.refillIntervalOf cfg⌋).toNat * r : ℕ)) - 1, ?_, ?_⟩
        · push_cast [Nat.cast_sub hm]
          ring
        · have := Nat.min_le_left b
            ((n + (⌊((now : ℚ) - (s.lastRefillTime : ℚ))
              / TokenBucket.refillIntervalOf cfg⌋).toNat * r : ℕ))
          omega
      · simp only [decide_eq_true_eq]
        exact_mod_cast hm
    · rw [if_neg]
      · refine ⟨min b _, rfl, Nat.min_le_left _ _⟩
      · simp only [decide_eq_true_eq]
        intro hcontra
        exact hm (by exact_mod_cast hcontra)

/-- Every state of a token-bucket execution with integral parameters holds
an integral token count within capacity. -/
theorem tokenBucket_runFrom_inv (cfg : RateLimitConfig) (b r : ℕ)
    (hb : TokenBucket.bucketSizeOf cfg = (b : ℚ))
    (hr : TokenBucket.refillRateOf cfg = (r : ℚ))
    (hri : 0 < TokenBucket.refillIntervalOf cfg) :
    ∀ (ts : List ℕ) (stored : Option TokenBucketState),
      List.Pairwise (· ≤ ·) ts →
      (∀ s, stored = some s →
        (∀ t ∈ ts, s.lastRefillTime ≤ t) ∧ ∃ n : ℕ, s.tokens = (n : ℚ) ∧ n ≤ b) →
      ∀ s ∈ TokenBucket.runFrom cfg stored ts, ∃ n : ℕ, s.tokens = (n : ℚ) ∧ n ≤ b := by
  intro ts
  induction ts with
  | nil => intro stored _ _ s hs; simp [TokenBucket.runFrom] at hs
  | cons t ts ih =>
      intro stored hmono hstored s hs
      rw [List.pairwise_cons] at hmono
      have hstep : (TokenBucket.checkLimit cfg stored t).2.lastRefillTime ≤ t ∧
          ∃ n : ℕ, ((TokenBucket.checkLimit cfg stored t).2.tokens = (n : ℚ) ∧ n ≤ b) := by
        cases stored with
        | none =>
            rw [TokenBucket.checkLimit_none]
            exact tokenBucket_check_step cfg b r hb hr hri _ t (le_refl t)
              ⟨b, by rw [hb], le_refl b⟩
        | some s0 =>
            obtain ⟨hst, hex⟩ := hstored s0 rfl
            exact tokenBucket_check_step cfg b r hb hr hri s0 t
              (hst t (List.mem_cons_self t ts)) hex
      simp only [TokenBucket.runFrom, List.mem_cons] at hs
      rcases hs with rfl | hs
      · exact hstep.2
      · refine ih (some (TokenBucket.checkLimit cfg stored t).2) hmono.2 ?_ s hs
        rintro s1 ⟨rfl⟩
        exact ⟨fun u hu => le_trans hstep.1 (hmono.1 u hu), hstep.2⟩

/-- C3 (corrected): the stored token count stays in `[0, bucketSize]`
after every check provided `bucketSize` and `refillRate` are positive
*integers* (so each refill adds whole tokens); the claim's bare "positive
refillRate" admits fractional rates, under which a sub-unit refill can be
consumed whole and drive the count negative. -/
theorem tokenBucket_tokens_in_range (cfg : RateLimitConfig) (b r : ℕ)
    (hb : TokenBucket.bucketSizeOf cfg = (b : ℚ)) (_hb1 : 1 ≤ b)
    (hr : TokenBucket.refillRateOf cfg = (r : ℚ)) (_hr1 : 1 ≤ r)
    (hri : 0 < TokenBucket.refillIntervalOf cfg)
    (times : List ℕ) (hmono : List.Pairwise (· ≤ ·) times)
    (s : TokenBucketState) (hs : s ∈ TokenBucket.run cfg times) :
    0 ≤ s.tokens ∧ s.tokens ≤ TokenBucket.bucketSizeOf cfg := by
  obtain ⟨n, hn, hnb⟩ := tokenBucket_runFrom_inv cfg b r hb hr hri times none hmono
    (by rintro s1 ⟨⟩) s hs
  rw [hn, hb]
  constructor
  · exact Nat.cast_nonneg n
  · exact_mod_cast hnb

unseal Rat.add Rat.mul Rat.inv Rat.sub in
/-- C3 witness: capacity 2, 1 token per second, checks at 0 and 1000. -/
theorem tokenBucket_tokens_in_range_witness :
    0 ≤ ({ tokens := 1, lastRefillTime := 0 } : TokenBucketState).tokens ∧
    ({ tokens := 1, lastRefillTime := 0 } : TokenBucketState).tokens
      ≤ TokenBucket.bucketSizeOf cfgTBInt :=
  tokenBucket_tokens_in_range cfgTBInt 2 1 (by decide) (by decide) (by decide) (by decide)
    (by decide) [0, 1000] (by decide) { tokens := 1, lastRefillTime := 0 } (by decide)

/-- Filtering twice by one predicate equals filtering once. -/
theorem filter_filter_self (p : ℕ → Bool) (l : List ℕ) :
    (l.filter p).filter p = l.filter p := by
  rw [List.filter_filter]
  apply List.filter_congr
  intro x _
  exact Bool.and_self (p x)

/-- The double filter of the sliding-window-log check collapses to a
single filter of the stored log. -/
theorem SlidingWindowLog.windowTimestamps_eq (cfg : RateLimitConfig) (log : List ℕ)
    (now : ℕ) :
    SlidingWindowLog.windowTimestamps cfg log now
      = log.filter fun ts => decide (now - cfg.windowMs ≤ ts) :=
  filter_filter_self _ _

/-- The stored log after a sliding-window-log check: the pruned log, with
the arrival time appended exactly on an allowed decision. -/
theorem SlidingWindowLog.log_eq (cfg : RateLimitConfig) (log : List ℕ) (now : ℕ) :
    (SlidingWindowLog.checkLimit cfg log now).2
      = if (SlidingWindowLog.checkLimit cfg log now).1.allowed = true
        then (log.filter fun ts => decide (now - cfg.windowMs ≤ ts)) ++ [now]
        else log.filter fun ts => decide (now - cfg.windowMs ≤ ts) := by
  rw [SlidingWindowLog.allowed_eq]
  simp only [SlidingWindowLog.checkLimit, SlidingWindowLog.windowTimestamps]

/-- Every time in a sliding-window-log decision history comes from the
requested check times. -/
theorem slw_hist_times (cfg : RateLimitConfig) :
    ∀ (ts log : List ℕ), ∀ q ∈ (SlidingWindowLog.runFrom cfg log ts).1, q.1 ∈ ts := by
  intro ts
  induction ts with
  | nil => intro log q hq; simp [SlidingWindowLog.runFrom] at hq
  | cons t ts ih =>
      intro log q hq
      simp only [SlidingWindowLog.runFrom, List.mem_cons] at hq ⊢
      rcases hq with rfl | hq
      · exact Or.inl rfl
      · exact Or.inr (ih _ q hq)

/-- Window count of an empty history. -/
theorem histCountAllowed_nil (W a : ℕ) : histCountAllowed W a [] = 0 := rfl

/-- Window count of a history extended at the front. -/
theorem histCountAllowed_cons (W a t : ℕ) (al : Bool) (hist : List (ℕ × Bool)) :
    histCountAllowed W a ((t, al) :: hist)
      = histCountAllowed W a hist + (if al && inWin W a t then 1 else 0) := by
  simp [histCountAllowed, List.countP_cons]

/-- The central invariant behind the sliding-window-log bound: running any
non-decreasing sequence of further checks from a log whose entries are in
the past and number at most `maxRequests` keeps, for every window
`[a, a + W]`, the surviving entries plus the allowed decisions within the
window bounded by `maxRequests`. -/
theorem slw_aux (cfg : RateLimitConfig) :
    ∀ ts : List ℕ, List.Pairwise (· ≤ ·) ts →
      ∀ log : List ℕ, (∀ s ∈ log, ∀ t ∈ ts, s ≤ t) →
      log.length ≤ cfg.maxRequests →
      ∀ a : ℕ,
        log.countP (inWin cfg.windowMs a)
          + histCountAllowed cfg.windowMs a (SlidingWindowLog.runFrom cfg log ts).1
          ≤ cfg.maxRequests := by
  intro ts
  induction ts with
  | nil =>
      intro _ log _ hlen a
      simp only [SlidingWindowLog.runFrom, histCountAllowed_nil, Nat.add_zero]
      exact le_trans (List.countP_le_length _) hlen
  | cons t ts ih =>
      intro hmono log hle hlen a
      rw [List.pairwise_cons] at hmono
      obtain ⟨hhead, htail⟩ := hmono
      have hall : (SlidingWindowLog.checkLimit cfg log t).1.allowed
          = decide ((log.filter fun s => decide (t - cfg.windowMs ≤ s)).length
              < cfg.maxRequests) := by
        rw [SlidingWindowLog.allowed_eq, SlidingWindowLog.windowTimestamps_eq]
      have hlog2 := SlidingWindowLog.log_eq cfg log t
      have hrunFrom : (SlidingWindowLog.runFrom cfg log (t :: ts)).1
          = (t, (SlidingWindowLog.checkLimit cfg log t).1.allowed)
            :: (SlidingWindowLog.runFrom cfg (SlidingWindowLog.checkLimit cfg log t).2 ts).1 :=
        rfl
      rw [hrunFrom, histCountAllowed_cons]
      by_cases hT : t ≤ a + cfg.windowMs
      · -- the arriving check is no later than the window's end, so pruning
        -- at `t` removes nothing from `[a, a + W]`
        have hpfilter : log.countP (inWin cfg.windowMs a)
            = (log.filter fun s => decide (t - cfg.windowMs ≤ s)).countP
                (inWin cfg.windowMs a) := by
          rw [List.countP_filter]
          apply List.countP_congr
          intro s _
          constructor
          · intro hs
            rw [Bool.and_eq_true]
            refine ⟨hs, ?_⟩
            rw [decide_eq_true_eq]
            have ha : a ≤ s := by
              unfold inWin at hs
              rw [Bool.and_eq_true, decide_eq_true_eq, decide_eq_true_eq] at hs
              exact hs.1
            omega
          · intro hs
            rw [Bool.and_eq_true] at hs
            exact hs.1
        by_cases hAl : (log.filter fun s => decide (t - cfg.windowMs ≤ s)).length
            < cfg.maxRequests
        · -- the check is allowed and appends `t`
          have halB : (SlidingWindowLog.checkLimit cfg log t).1.allowed = true := by
            rw [hall]; exact decide_eq_true hAl
          have hlog2' : (SlidingWindowLog.checkLimit cfg log t).2
              = (log.filter fun s => decide (t - cfg.windowMs ≤ s)) ++ [t] := by
            rw [hlog2, if_pos halB]
          have hle2 : ∀ s ∈ (log.filter fun s => decide (t - cfg.windowMs ≤ s)) ++ [t],
              ∀ u ∈ ts, s ≤ u := by
            intro s hs u hu
            rcases List.mem_append.mp hs with hs | hs
            · exact hle s (List.mem_of_mem_filter hs) u (List.mem_cons_of_mem t hu)
            · rw [List.mem_singleton] at hs
              subst hs
              exact hhead u hu
          have hlen2 : ((log.filter fun s => decide (t - cfg.windowMs ≤ s)) ++ [t]).length
              ≤ cfg.maxRequests := by
            rw [List.length_append, List.length_singleton]
            omega
          have hstep := ih htail _ hle2 hlen2 a
          rw [List.countP_append] at hstep
          have hsingle : ([t] : List ℕ).countP (inWin cfg.windowMs a)
              = if inWin cfg.windowMs a t then 1 else 0 := by
            simp [List.countP_cons]
          rw [hsingle] at hstep
          rw [hlog2', halB, Bool.true_and, hpfilter]
          omega
        · -- the check is blocked and appends nothing
          have halB : (SlidingWindowLog.checkLimit cfg log t).1.allowed = false := by
            rw [hall]; exact decide_eq_false hAl
          have hlog2' : (SlidingWindowLog.checkLimit cfg log t).2
              = log.filter fun s => decide (t - cfg.windowMs ≤ s) := by
            rw [hlog2, if_neg]
            rw [halB]
            exact Bool.false_ne_true
          have hle2 : ∀ s ∈ (log.filter fun s => decide (t - cfg.windowMs ≤ s)),
              ∀ u ∈ ts, s ≤ u := fun s hs u hu =>
            hle s (List.mem_of_mem_filter hs) u (List.mem_cons_of_mem t hu)
          have hlen2 : (log.filter fun s => decide (t - cfg.windowMs ≤ s)).length
              ≤ cfg.maxRequests :=
            le_trans (List.length_filter_le _ _) hlen
          have hstep := ih htail _ hle2 hlen2 a
          rw [hlog2', halB, Bool.false_and, hpfilter]
          simp only [if_neg Bool.false_ne_true, Nat.add_zero]
          exact hstep
      · -- the window closed before `t`: later checks contribute nothing
        have hz : histCountAllowed cfg.windowMs a
            (SlidingWindowLog.runFrom cfg (SlidingWindowLog.checkLimit cfg log t).2 ts).1
              = 0 := by
          unfold histCountAllowed
          rw [List.countP_eq_zero]
          intro q hq
          have hqt : q.1 ∈ ts := slw_hist_times cfg ts _ q hq
          have hqtime : t ≤ q.1 := hhead q.1 hqt
          rw [Bool.and_eq_true, not_and]
          intro _
          unfold inWin
          rw [Bool.and_eq_true, decide_eq_true_eq, decide_eq_true_eq, not_and]
          intro _
          omega
        have hwt : inWin cfg.windowMs a t = false := by
          unfold inWin
          rw [decide_eq_false (by omega : ¬(t ≤ a + cfg.windowMs)), Bool.and_false]
        rw [hz, hwt, Bool.and_false]
        simp only [if_neg Bool.false_ne_true, Nat.add_zero]
        exact le_trans (List.countP_le_length _) hlen

/-- C2 (confirmed): in any execution of the sliding-window-log algorithm at
non-decreasing clock values, every closed window `[a, a + windowDuration]`
contains at most `maxRequests` allowed checks; moreover a check is allowed
exactly when the count of stored timestamps `≥ now − windowDuration` is
strictly below the limit, and only an allowed check appends its timestamp. -/
theorem slw_limit_per_window (cfg : RateLimitConfig) (times : List ℕ)
    (hmono : List.Pairwise (· ≤ ·) times) (a : ℕ) :
    histCountAllowed cfg.windowMs a (SlidingWindowLog.run cfg times).1 ≤ cfg.maxRequests
    ∧ (∀ log now, (SlidingWindowLog.checkLimit cfg log now).1.allowed
        = decide ((log.countP fun ts => decide (now - cfg.windowMs ≤ ts)) < cfg.maxRequests))
    ∧ (∀ log now, (SlidingWindowLog.checkLimit cfg log now).2
        = if (SlidingWindowLog.checkLimit cfg log now).1.allowed = true
          then (log.filter fun ts => decide (now - cfg.windowMs ≤ ts)) ++ [now]
          else log.filter fun ts => decide (now - cfg.windowMs ≤ ts)) := by
  refine ⟨?_, ?_, ?_⟩
  · have h := slw_aux cfg times hmono [] (by intro s hs; cases hs) (Nat.zero_le _) a
    simpa [SlidingWindowLog.run] using h
  · intro log now
    rw [SlidingWindowLog.allowed_eq, SlidingWindowLog.windowTimestamps_eq,
      List.countP_eq_length_filter]
  · intro log now
    exact SlidingWindowLog.log_eq cfg log now

/-- C2 witness: 2 per 10 ms, checks at 0, 0 and 5 — the third is denied
and the window `[0, 10]` holds exactly 2 allowed checks. -/
theorem slw_limit_per_window_witness :
    histCountAllowed cfgSWL.windowMs 0 (SlidingWindowLog.run cfgSWL [0, 0, 5]).1
      ≤ cfgSWL.maxRequests :=
  (slw_limit_per_window cfgSWL [0, 0, 5] (by decide) 0).1
